import Mathlib

/-!
Verification of `run.py`, a single-file C/C++ build-and-run helper.

Filesystem paths are modelled as lists of components (one component = the
characters of one name between separators); the paths handed to
`normalize_target_in_project` are already resolved, so `Path.resolve()` is
the identity on them.  Names and identifiers are lists of characters where
character-level reasoning is needed, and `String` at the command level.
External effects (the `cmake -E capabilities` query, `shutil.which`, the
exit codes of spawned processes, `shutil.rmtree`) are supplied by an
environment record, and `main` is embedded as a function from that
environment to an observable result record.
-/

namespace RunPy

/-- One path component: the characters of a single name (never containing a
separator in a resolved path). -/
abbrev Comp := List Char

/-- A resolved path: its list of components. -/
abbrev PathC := List Comp

/-- Python's `Path.name`: the final component of a path (empty for the root path). -/
def pathName (p : PathC) : Comp := p.getLast?.getD []

/-- Python's `file.relative_to(root)` on resolved paths: defined exactly when `root`
is a prefix of `file`, in which case it is the remaining components;
`None` models the `ValueError` branch. -/
def relativeTo (file root : PathC) : Option PathC :=
  if root.isPrefixOf file then some (file.drop root.length) else none

/-- Python's `name.rfind "."`: the index of the last dot in a name, if any. -/
def rfindDot : Comp → Option Nat
  | [] => none
  | c :: cs =>
    match rfindDot cs with
    | some i => some (i + 1)
    | none => if c = '.' then some 0 else none

/-- Python's `PurePath.suffix` on a name: the substring from the last dot, provided
that dot is neither the first nor the last character; empty otherwise. -/
def pySuffix (name : Comp) : Comp :=
  match rfindDot name with
  | none => []
  | some i => if 0 < i ∧ i < name.length - 1 then name.drop i else []

/-- Python's `with_suffix("")` on a name: the name with its suffix cut off
(`name[:-len(old_suffix)]`, i.e. the name itself when there is no suffix). -/
def pyStem (name : Comp) : Comp := name.take (name.length - (pySuffix name).length)

/-- Python's `Path(rel).with_suffix("")`: replace the final component by its stem. -/
def withSuffixEmpty : PathC → PathC
  | [] => []
  | ps => ps.dropLast ++ [pyStem (pathName ps)]

/-- Python's `as_posix()`: the components joined by `/`. -/
def asPosix (p : PathC) : List Char := List.intercalate ['/'] p

/-- Python's `str.replace("/", "_")`: with a one-character pattern and replacement
this is a character-wise substitution. -/
def replaceSlash (s : List Char) : List Char :=
  s.map (fun c => if c = '/' then '_' else c)

/-- Python's `str.lower()` on a list of characters. -/
def lowerC (s : List Char) : List Char := s.map Char.toLower

/-- Python's `str.lstrip(".")`: remove every leading dot. -/
def lstripDot (s : List Char) : List Char := s.dropWhile (fun c => c == '.')

/-- The function `normalize_target_in_project` from `run.py`: the relative path (or, when
`relative_to` raises, the bare file name) with its extension dropped,
separators turned into underscores, and the lowercased extension appended
after an underscore when the file has one. -/
def normalize_target_in_project (file_path : PathC) (project_root : PathC) : List Char :=
  let rel : PathC :=
    match relativeTo file_path project_root with
    | some r => r
    | none => [pathName file_path]
  let posix_no_ext := asPosix (withSuffixEmpty rel)
  let base := replaceSlash posix_no_ext
  let ext := lstripDot (lowerC (pySuffix (pathName file_path)))
  if ext = [] then base else base ++ '_' :: ext

/-- A JSON value, as `json.loads` can return it: the capability query's
output need not be shaped like a capabilities object, so every decodable
shape must be representable. -/
inductive Json where
  | null
  | bool (b : Bool)
  | num (n : Int)
  | str (s : String)
  | list (elems : List Json)
  | dict (entries : List (String × Json))

/-- The exceptions the shape-blind dictionary and iteration accesses in
`choose_generator` can raise; `run.py` catches neither. -/
inductive PyError where
  | attributeError
  | typeError
deriving DecidableEq

/-- The outcome of the `cmake -E capabilities` subprocess as `run.py` sees
it: `ok output` when the tool ran, exited 0, and its stdout decoded to the
JSON value `output`; `failed` covers exactly the three caught exceptions:
the tool being absent (`FileNotFoundError`), a non-zero exit
(`CalledProcessError`), and undecodable output (`JSONDecodeError`). -/
inductive CapResult where
  | ok (output : Json)
  | failed

/-- The value returned by `read_capabilities`: the decoded output, or the
empty dict `{}` on any caught exception. -/
def read_capabilities : CapResult → Json
  | .ok j => j
  | .failed => .dict []

/-- Python dict lookup on an association list (JSON object keys are
unique, so the first match is the value). -/
def dictLookup (key : String) : List (String × Json) → Option Json
  | [] => none
  | (k, v) :: rest => if k = key then some v else dictLookup key rest

/-- Python's `x.get(key, dflt)`: defined on dicts, returning `dflt` when
the key is absent; on every other value the attribute access raises
`AttributeError`. -/
def dictGet (j : Json) (key : String) (dflt : Json) : Except PyError Json :=
  match j with
  | .dict entries => .ok ((dictLookup key entries).getD dflt)
  | _ => .error .attributeError

/-- Python iteration, as `for g in ...` performs it: a list yields its
elements, a string yields its characters as one-character strings, a dict
yields its keys; `null`, booleans and numbers are not iterable and raise
`TypeError`. -/
def iterate : Json → Except PyError (List Json)
  | .list elems => .ok elems
  | .str s => .ok (s.data.map (fun c => .str (String.mk [c])))
  | .dict entries => .ok (entries.map (fun e => .str e.fst))
  | _ => .error .typeError

/-- Whether a value can be inserted into a Python set: lists and dicts are
unhashable and make the insertion raise `TypeError`. -/
def hashable : Json → Bool
  | .list _ => false
  | .dict _ => false
  | _ => true

/-- The list comprehension `[g.get("name") for g in ...]` used by the
`--list-generators` exit: evaluated left to right, raising at the first
non-dict entry. -/
def buildNameList : List Json → Except PyError (List Json)
  | [] => .ok []
  | g :: gs =>
    match dictGet g "name" Json.null with
    | .error e => .error e
    | .ok v =>
      match buildNameList gs with
      | .error e => .error e
      | .ok vs => .ok (v :: vs)

/-- The set comprehension `{g.get("name") for g in ...}` in
`choose_generator`: evaluated left to right, raising at the first non-dict
entry or at the first unhashable name value. -/
def buildNameSet : List Json → Except PyError (List Json)
  | [] => .ok []
  | g :: gs =>
    match dictGet g "name" Json.null with
    | .error e => .error e
    | .ok v =>
      if hashable v then
        match buildNameSet gs with
        | .error e => .error e
        | .ok vs => .ok (v :: vs)
      else .error .typeError

/-- Python's `==` between a string and an arbitrary value: true only for
an equal string — so `candidate in available` is an `any` over this. -/
def pyStrEq (c : String) : Json → Bool
  | .str s => c == s
  | _ => false

/-- The probe `choose_generator`: reads the capability document, collects
the `name` entries of its `generators` list into a set, and returns the
first preferred name in that set — or propagates the uncaught
`AttributeError`/`TypeError` that a decodable but wrongly-shaped document
makes the shape-blind accesses raise. -/
def choose_generator (preferred : List String) (r : CapResult) :
    Except PyError (Option String) :=
  let data := read_capabilities r
  match dictGet data "generators" (Json.list []) with
  | .error e => .error e
  | .ok gens =>
    match iterate gens with
    | .error e => .error e
    | .ok items =>
      match buildNameSet items with
      | .error e => .error e
      | .ok available =>
        .ok (preferred.find? (fun candidate => available.any (pyStrEq candidate)))

/-- Encoding of a well-shaped generator entry: a dict carrying the given
`name`, or a dict without a `name` key. -/
def encEntry : Option String → Json
  | some s => Json.dict [("name", Json.str s)]
  | none => Json.dict []

/-- The value `g.get("name")` takes on a well-shaped entry: the name
string, or Python `None` when the key is absent. -/
def encName : Option String → Json
  | some s => Json.str s
  | none => Json.null

/-- A well-shaped capabilities document reporting the given generator
names. -/
def capsOutput (names : List (Option String)) : Json :=
  Json.dict [("generators", Json.list (names.map encEntry))]

/-- The probe `choose_compiler`: the first preferred name for which `shutil.which`
finds an executable; `which` is the oracle for the search path. -/
def choose_compiler (preferred : List String) (which : String → Bool) : Option String :=
  preferred.find? which

/-- Python's `needle in haystack` on strings: substring containment. -/
def containsSub (needle hay : List Char) : Bool :=
  hay.tails.any (fun t => needle.isPrefixOf t)

/-- The predicate `is_multi_config`: the lowercased generator name contains `multi-config`
or `visual studio`. -/
def is_multi_config (generator : String) : Bool :=
  let name := generator.data.map Char.toLower
  containsSub "multi-config".data name || containsSub "visual studio".data name

/-- The two substrings `is_multi_config` treats as multi-configuration
markers in a lowercased generator name. -/
def multiConfigMarkers : List String := ["multi-config", "visual studio"]

def PREFERRED_GENERATORS : List String :=
  ["Ninja Multi-Config", "Ninja", "Unix Makefiles", "MinGW Makefiles",
   "Visual Studio 17 2022"]

def PREFERRED_COMPILERS_C : List String := ["cc", "gcc", "clang", "cl"]

def PREFERRED_COMPILERS_CXX : List String := ["c++", "g++", "clang++", "cl"]

/-- The argv assembled by `configure_build`: the build-type define is added
only for single-config generators, then the user's extra configure args. -/
def configure_cmd (generator build_config : String) (extra_args : List String) :
    List String :=
  ["cmake", "-S", ".", "-B", "build", "-G", generator, "-Wno-dev"]
    ++ (if is_multi_config generator then [] else ["-DCMAKE_BUILD_TYPE=" ++ build_config])
    ++ extra_args

/-- The argv assembled by `build_target`: `--config` is added only for
multi-config generators, then the user's extra build args. -/
def build_cmd (target generator build_config : String) (extra_args : List String) :
    List String :=
  ["cmake", "--build", "build", "--target", target]
    ++ (if is_multi_config generator then ["--config", build_config] else [])
    ++ extra_args

/-- The function `exe_path`: the components of the binary path under the build tree.
`default_config` is the module-level `DEFAULT_CONFIG` (the
`CMAKE_BUILD_CONFIG` environment variable, defaulting to `Debug`) — note
the function reads that global, not the `--config` flag. -/
def exe_path (target generator default_config : String) (isWindows : Bool) :
    List String :=
  let base := if is_multi_config generator then ["build", default_config] else ["build"]
  let suffix := if isWindows then ".exe" else ""
  base ++ [target ++ suffix]

/-- Python's `flag or default` for the optional string flags: `None` and the
empty string are both falsy. -/
def orDefault (flag : Option String) (dflt : String) : String :=
  match flag with
  | some s => if s = "" then dflt else s
  | none => dflt

/-- Messages printed by the `fail`/`fail_with_log` calls in `main`. -/
def noCompilerMsg (compilers : List String) : String :=
  "No compiler found. Looked for: " ++ String.intercalate ", " compilers

def compileFailMsg (code : Nat) : String :=
  "Compilation failed with exit code " ++ toString code ++ ". Logs at build_output.log."

def cmakeFailMsg (code : Nat) : String :=
  "CMake failed with exit code " ++ toString code ++ ". Logs at build_output.log."

def execFailMsg (code : Nat) : String :=
  "Executable returned non-zero exit code " ++ toString code

def noGeneratorMsg : String :=
  "No suitable CMake generator found. Tried: " ++ String.intercalate ", " PREFERRED_GENERATORS

/-- The branch `main` commits to after the early flag exits. -/
inductive Strategy where
  | directCompile
  | projectBuild
deriving DecidableEq

/-- Everything the surrounding system decides for one run of `main`:
parsed flags, the environment-derived default configuration, the paths,
and the behaviour of every external process the run may spawn. -/
structure Env where
  listGenerators : Bool
  printBinary : Bool
  generatorFlag : Option String
  configFlag : Option String
  cmakeArgs : List String
  buildArgs : List String
  defaultConfig : String
  isWindows : Bool
  cmakeOnPath : Bool
  filePath : PathC
  projectRoot : PathC
  fileIsC : Bool
  tempDirName : String
  caps : CapResult
  which : String → Bool
  compileExit : Nat
  configureExit : Nat
  buildExit : Nat
  binaryExists : Bool
  childExit : Nat
  rmtreeOk : Bool

/-- The observable outcome of one run of `main`: the process exit code, the
failure message printed (if any), whether the build log was dumped, the
branch taken, the lifecycle of the temporary directory, whether the built
program was executed, the configure/build argv issued, the located binary
path, and the Python exception that escaped uncaught, if any. -/
structure Result where
  exitCode : Nat
  message : Option String
  logDumped : Bool
  strategy : Option Strategy
  tempCreated : Bool
  tempRemoved : Bool
  executed : Bool
  configureCmd : Option (List String)
  buildCmd : Option (List String)
  binaryPath : Option (List String)
  uncaughtError : Option PyError

/-- The `sys.exit(0)` results of the `--list-generators` and
`--print-binary` early exits when nothing raises. -/
def earlyExit : Result :=
  { exitCode := 0, message := none, logDumped := false, strategy := none,
    tempCreated := false, tempRemoved := false, executed := false,
    configureCmd := none, buildCmd := none, binaryPath := none,
    uncaughtError := none }

/-- The observable outcome of an uncaught Python exception escaping
`main`: the interpreter prints a traceback and exits 1; no `fail` message
is printed and no log is dumped. -/
def crashResult (e : PyError) (strat : Option Strategy) : Result :=
  { exitCode := 1, message := none, logDumped := false, strategy := strat,
    tempCreated := false, tempRemoved := false, executed := false,
    configureCmd := none, buildCmd := none, binaryPath := none,
    uncaughtError := some e }

/-- The `try: subprocess.run([binary, *args]) ... finally:` tail of `main`:
a non-zero child exit is reported through `fail` (no log dump) with the
child's code; the `finally` block then removes the temporary directory when
one was recorded, swallowing any `OSError` from `rmtree`. -/
def executePhase (env : Env) (base : Result) : Result :=
  let removed := base.tempCreated && env.rmtreeOk
  if env.childExit ≠ 0 then
    { base with
      exitCode := env.childExit, message := some (execFailMsg env.childExit),
      logDumped := false, executed := true, tempRemoved := removed }
  else
    { base with exitCode := 0, executed := true, tempRemoved := removed }

/-- The direct-compilation branch of `main`: pick a compiler (fatal without
log dump if none), then `direct_compile`, which creates the temporary
directory before invoking the compiler — so a failed compilation exits via
`fail_with_log` with the directory already created but `cleanup_dir` never
assigned and the `finally` block never reached. -/
def directBranch (env : Env) : Result :=
  let compilers := if env.fileIsC then PREFERRED_COMPILERS_C else PREFERRED_COMPILERS_CXX
  match choose_compiler compilers env.which with
  | none =>
    { exitCode := 1, message := some (noCompilerMsg compilers), logDumped := false,
      strategy := some .directCompile, tempCreated := false, tempRemoved := false,
      executed := false, configureCmd := none, buildCmd := none, binaryPath := none,
      uncaughtError := none }
  | some _ =>
    if env.compileExit ≠ 0 then
      { exitCode := env.compileExit, message := some (compileFailMsg env.compileExit),
        logDumped := true, strategy := some .directCompile, tempCreated := true,
        tempRemoved := false, executed := false, configureCmd := none,
        buildCmd := none, binaryPath := none, uncaughtError := none }
    else
      executePhase env
        { exitCode := 0, message := none, logDumped := false,
          strategy := some .directCompile, tempCreated := true, tempRemoved := false,
          executed := false, configureCmd := none, buildCmd := none,
          binaryPath := some [env.tempDirName,
            if env.isWindows then "a.exe" else "a.out"],
          uncaughtError := none }

/-- The project-build branch of `main`: `parsed.generator or
choose_generator(...)` (fatal if none), configure then build through the
shared `try` (fatal with log dump, mirroring the child's code), locate the
binary with `exe_path` (fatal if missing), then run it.  The chosen
generator coming from the preference list or a non-empty `-G` flag is never
the empty string, so Python's `if not generator` is the `none` check. -/
def projectBranch (env : Env) (target : String) : Result :=
  let generatorChoice : Except PyError (Option String) :=
    match env.generatorFlag with
    | some g => if g = "" then choose_generator PREFERRED_GENERATORS env.caps
                else .ok (some g)
    | none => choose_generator PREFERRED_GENERATORS env.caps
  match generatorChoice with
  | .error e => crashResult e (some .projectBuild)
  | .ok none =>
    { exitCode := 1, message := some noGeneratorMsg, logDumped := false,
      strategy := some .projectBuild, tempCreated := false, tempRemoved := false,
      executed := false, configureCmd := none, buildCmd := none, binaryPath := none,
      uncaughtError := none }
  | .ok (some generator) =>
    let build_config := orDefault env.configFlag env.defaultConfig
    let confCmd := configure_cmd generator build_config env.cmakeArgs
    if env.configureExit ≠ 0 then
      { exitCode := env.configureExit,
        message := some (cmakeFailMsg env.configureExit), logDumped := true,
        strategy := some .projectBuild, tempCreated := false, tempRemoved := false,
        executed := false, configureCmd := some confCmd, buildCmd := none,
        binaryPath := none, uncaughtError := none }
    else
      let bldCmd := build_cmd target generator build_config env.buildArgs
      if env.buildExit ≠ 0 then
        { exitCode := env.buildExit, message := some (cmakeFailMsg env.buildExit),
          logDumped := true, strategy := some .projectBuild, tempCreated := false,
          tempRemoved := false, executed := false, configureCmd := some confCmd,
          buildCmd := some bldCmd, binaryPath := none, uncaughtError := none }
      else
        let binary := exe_path target generator env.defaultConfig env.isWindows
        if env.binaryExists then
          executePhase env
            { exitCode := 0, message := none, logDumped := false,
              strategy := some .projectBuild, tempCreated := false,
              tempRemoved := false, executed := false, configureCmd := some confCmd,
              buildCmd := some bldCmd, binaryPath := some binary,
              uncaughtError := none }
        else
          { exitCode := 1,
            message := some ("Built binary not found at " ++ String.intercalate "/" binary),
            logDumped := false, strategy := some .projectBuild, tempCreated := false,
            tempRemoved := false, executed := false, configureCmd := some confCmd,
            buildCmd := some bldCmd, binaryPath := some binary,
            uncaughtError := none }

/-- The `--list-generators` early exit: builds the generator-name list
(raising on a decodable but wrongly-shaped capability document, just as
`choose_generator` does) and then exits 0. -/
def listGeneratorsExit (env : Env) : Result :=
  match dictGet (read_capabilities env.caps) "generators" (Json.list []) with
  | .error e => crashResult e none
  | .ok gens =>
    match iterate gens with
    | .error e => crashResult e none
    | .ok items =>
      match buildNameList items with
      | .error e => crashResult e none
      | .ok _ => earlyExit

/-- The `--print-binary` early exit: outside the project it prints a note
and exits 0; inside the project it consults `parsed.generator or
choose_generator(...)` — the probe can raise, and that exception is not
the `ValueError` the surrounding `try` catches — and otherwise exits 0
whether or not a generator was found. -/
def printBinaryExit (env : Env) : Result :=
  match relativeTo env.filePath env.projectRoot with
  | none => earlyExit
  | some _ =>
    match (match env.generatorFlag with
      | some g => if g = "" then choose_generator PREFERRED_GENERATORS env.caps
                  else .ok (some g)
      | none => choose_generator PREFERRED_GENERATORS env.caps) with
    | .error e => crashResult e none
    | .ok _ => earlyExit

/-- The function `main` after argument parsing and the log truncation: the two early
flag exits, then the strategy selection of lines 215-244 — direct
compilation when `cmake` is off the path or the file is outside the
project root (`relative_to` raised), and the project build otherwise, with
the target derived by `normalize_target_in_project`. -/
def runMain (env : Env) : Result :=
  if env.listGenerators then listGeneratorsExit env
  else if env.printBinary then printBinaryExit env
  else if !env.cmakeOnPath then directBranch env
  else if (relativeTo env.filePath env.projectRoot).isNone then directBranch env
  else
    projectBranch env
      (String.mk (normalize_target_in_project env.filePath env.projectRoot))

/-- The Target Resolver as section 4.2 of the spec words it, for a file
inside the project root: take the path relative to the root, drop the file
extension, convert the path separators to the single joiner character `_`,
and append an underscore plus the lowercased original extension, omitted
when the file has no extension. -/
def resolveTargetSpec (file_path : PathC) (project_root : PathC) : List Char :=
  let rel := file_path.drop project_root.length
  let stemmed := rel.dropLast ++ [pyStem (pathName rel)]
  let joined := List.intercalate ['_'] stemmed
  let ext := lowerC ((pySuffix (pathName rel)).drop 1)
  if ext = [] then joined else joined ++ '_' :: ext

/-- A well-formed decomposition of a relative path for the injectivity
statement: directory components `i`, file-name stem `s` and extension `e`
(the file name being `s ++ "." ++ e`), with the stem and extension
non-empty, the extension dot-free and already lowercase, and every
component free of the separator `/` and of the joiner `_`. -/
def GoodSplit (i : PathC) (s e : Comp) : Prop :=
  s ≠ [] ∧ e ≠ [] ∧ '.' ∉ e ∧ (∀ ch ∈ e, ch.toLower = ch) ∧
  (∀ c ∈ i, '/' ∉ c ∧ '_' ∉ c) ∧ '/' ∉ s ∧ '_' ∉ s ∧ '_' ∉ e

/-- A sample project root, `/home/p`. -/
def rootEx : PathC := ["home".data, "p".data]

/-- The file `/home/p/src/foo.c`: a file strictly inside the sample root. -/
def fileInEx : PathC := rootEx ++ ["src".data, "foo.c".data]

/-- The file `/home/p/src_foo.c`: a second file strictly inside the sample root,
with a different relative path but the same extension as `fileInEx`. -/
def fileInEx2 : PathC := rootEx ++ ["src_foo.c".data]

/-- The file `/home/p/foo.c`: a file at the top of the sample root. -/
def fileTopEx : PathC := rootEx ++ ["foo.c".data]

/-- The file `/tmp/foo.c`: a file outside the sample root. -/
def fileOutEx : PathC := ["tmp".data, "foo.c".data]

/-- A concrete environment: `cmake` absent, a compiler found, compilation
failing with exit 1 — the temporary directory is created but the run never
reaches the execution phase. -/
def envCompileFail : Env :=
  { listGenerators := false, printBinary := false, generatorFlag := none,
    configFlag := none, cmakeArgs := [], buildArgs := [], defaultConfig := "Debug",
    isWindows := false, cmakeOnPath := false, filePath := ["main.c".data],
    projectRoot := [], fileIsC := true, tempDirName := "c-run-x", caps := .failed,
    which := fun _ => true, compileExit := 1, configureExit := 0, buildExit := 0,
    binaryExists := true, childExit := 0, rmtreeOk := true }

/-- The same environment with a successful compilation: a complete direct
run whose child exits 0. -/
def envDirectOk : Env := { envCompileFail with compileExit := 0 }

/-- A successful multi-config project build: `cmake` present, the file in
the project root, the generator forced to `Ninja Multi-Config`, and
`--config Release` requested while the environment default is `Debug`. -/
def envProj : Env :=
  { envCompileFail with
    cmakeOnPath := true, compileExit := 0,
    generatorFlag := some "Ninja Multi-Config", configFlag := some "Release" }

/-! ### Lemmas about the target resolver -/

theorem rfindDot_eq_none {l : Comp} : rfindDot l = none ↔ '.' ∉ l := by
  induction l with
  | nil => simp [rfindDot]
  | cons c cs ih =>
    simp only [rfindDot]
    cases h : rfindDot cs with
    | some i =>
      have hmem : '.' ∈ cs := by
        by_contra hn
        rw [ih.mpr hn] at h
        cases h
      simp [List.mem_cons, hmem]
    | none =>
      have hcs : '.' ∉ cs := ih.mp h
      by_cases hc : c = '.'
      · subst hc; simp
      · have hc' : ¬('.' = c) := fun h' => hc h'.symm
        simp [hc, hcs, List.mem_cons, hc']

theorem rfindDot_append {s e : Comp} (he : '.' ∉ e) :
    rfindDot (s ++ '.' :: e) = some s.length := by
  induction s with
  | nil => simp [rfindDot, rfindDot_eq_none.mpr he]
  | cons c cs ih => simp [rfindDot, ih]

theorem rfindDot_eq_some {l : Comp} {i : Nat} (h : rfindDot l = some i) :
    ∃ pre post, l = pre ++ '.' :: post ∧ pre.length = i ∧ '.' ∉ post := by
  induction l generalizing i with
  | nil => cases h
  | cons c cs ih =>
    simp only [rfindDot] at h
    cases hcs : rfindDot cs with
    | some j =>
      rw [hcs] at h
      obtain ⟨pre, post, hsplit, hlen, hpost⟩ := ih hcs
      cases h
      exact ⟨c :: pre, post, by rw [hsplit]; rfl, by simp [hlen], hpost⟩
    | none =>
      rw [hcs] at h
      by_cases hc : c = '.'
      · rw [if_pos hc] at h
        cases h
        subst hc
        exact ⟨[], cs, rfl, rfl, rfindDot_eq_none.mp hcs⟩
      · rw [if_neg hc] at h
        cases h

theorem pySuffix_append {s e : Comp} (hs : s ≠ []) (he : e ≠ []) (hd : '.' ∉ e) :
    pySuffix (s ++ '.' :: e) = '.' :: e := by
  unfold pySuffix
  rw [rfindDot_append hd]
  show (if 0 < s.length ∧ s.length < (s ++ '.' :: e).length - 1
      then (s ++ '.' :: e).drop s.length else []) = '.' :: e
  have h1 : 0 < s.length := List.length_pos.mpr hs
  have h2 : s.length < (s ++ '.' :: e).length - 1 := by
    have he' : 0 < e.length := List.length_pos.mpr he
    simp only [List.length_append, List.length_cons]
    omega
  rw [if_pos ⟨h1, h2⟩]
  exact List.drop_left s ('.' :: e)

theorem pyStem_append {s e : Comp} (hs : s ≠ []) (he : e ≠ []) (hd : '.' ∉ e) :
    pyStem (s ++ '.' :: e) = s := by
  unfold pyStem
  rw [pySuffix_append hs he hd]
  have hlen : (s ++ '.' :: e).length - ('.' :: e).length = s.length := by
    simp only [List.length_append, List.length_cons]
    omega
  rw [hlen]
  exact List.take_left s ('.' :: e)

theorem pySuffix_shape (n : Comp) :
    pySuffix n = [] ∨ ∃ r, pySuffix n = '.' :: r ∧ r ≠ [] ∧ '.' ∉ r := by
  unfold pySuffix
  cases h : rfindDot n with
  | none => exact Or.inl rfl
  | some i =>
    by_cases hcond : 0 < i ∧ i < n.length - 1
    · right
      obtain ⟨pre, post, hsplit, hlen, hpost⟩ := rfindDot_eq_some h
      refine ⟨post, ?_, ?_, hpost⟩
      · show (if 0 < i ∧ i < n.length - 1 then n.drop i else []) = '.' :: post
        rw [if_pos hcond, hsplit, ← hlen]
        exact List.drop_left pre ('.' :: post)
      · intro h0
        subst h0
        rw [hsplit] at hcond
        simp only [List.length_append, List.length_cons, List.length_nil] at hcond
        omega
    · refine Or.inl ?_
      show (if 0 < i ∧ i < n.length - 1 then n.drop i else []) = []
      exact if_neg hcond

theorem toLower_eq_dot {c : Char} (h : c.toLower = '.') : c = '.' := by
  have h' : (if c.toNat ≥ 65 ∧ c.toNat ≤ 90 then Char.ofNat (c.toNat + 32) else c) = '.' := h
  clear h
  rename' h' => h
  split at h
  case isTrue hcond =>
    exfalso
    obtain ⟨h1, h2⟩ := hcond
    generalize hg : c.toNat = n at h1 h2 h
    interval_cases n <;> exact absurd h (by decide)
  case isFalse => exact h

theorem lstrip_lower_pySuffix (n : Comp) :
    lstripDot (lowerC (pySuffix n)) = lowerC ((pySuffix n).drop 1) := by
  rcases pySuffix_shape n with h | ⟨r, h, hr, hdot⟩
  · rw [h]; rfl
  · rw [h]
    simp only [lowerC, List.map_cons, List.drop_one, List.tail_cons]
    have hdotlow : Char.toLower '.' = '.' := by decide
    rw [hdotlow]
    show List.dropWhile (fun c => c == '.') ('.' :: r.map Char.toLower) = r.map Char.toLower
    rw [List.dropWhile_cons_of_pos (by simp)]
    cases r with
    | nil => rfl
    | cons c r2 =>
      have hc : c ≠ '.' := fun hc => hdot (hc ▸ List.mem_cons_self c r2)
      simp only [List.map_cons]
      rw [List.dropWhile_cons_of_neg]
      simp only [beq_iff_eq]
      exact fun hl => hc (toLower_eq_dot hl)

theorem intercalate_cons_cons (sep : List Char) (a b : Comp) (l : PathC) :
    List.intercalate sep (a :: b :: l) = a ++ sep ++ List.intercalate sep (b :: l) := by
  simp [List.intercalate, List.intersperse]

theorem intercalate_concat_last (sep : List Char) (ps : PathC) (hps : ps ≠ []) (e : Comp) :
    List.intercalate sep (ps ++ [e]) = List.intercalate sep ps ++ sep ++ e := by
  induction ps with
  | nil => cases hps rfl
  | cons c cs ih =>
    cases cs with
    | nil =>
      show List.intercalate sep (c :: e :: []) = List.intercalate sep [c] ++ sep ++ e
      rw [intercalate_cons_cons]
      simp [List.intercalate]
    | cons d ds =>
      show List.intercalate sep (c :: ((d :: ds) ++ [e]))
          = List.intercalate sep (c :: d :: ds) ++ sep ++ e
      rw [List.cons_append, intercalate_cons_cons, ← List.cons_append,
        ih (by simp), intercalate_cons_cons]
      simp [List.append_assoc]

theorem replaceSlash_eq_self {c : Comp} (h : '/' ∉ c) : replaceSlash c = c := by
  unfold replaceSlash
  have hid : ∀ a ∈ c, (if a = '/' then '_' else a) = a := by
    intro a ha
    refine if_neg fun he => h ?_
    rw [← he]
    exact ha
  rw [List.map_congr_left hid, List.map_id']

theorem replaceSlash_intercalate (ps : PathC) (h : ∀ c ∈ ps, '/' ∉ c) :
    replaceSlash (List.intercalate ['/'] ps) = List.intercalate ['_'] ps := by
  induction ps with
  | nil => rfl
  | cons c cs ih =>
    cases cs with
    | nil =>
      show replaceSlash (List.intercalate ['/'] [c]) = List.intercalate ['_'] [c]
      simp only [List.intercalate, List.intersperse, List.flatten, List.append_nil]
      exact replaceSlash_eq_self (h c (List.mem_cons_self c []))
    | cons d ds =>
      rw [intercalate_cons_cons, intercalate_cons_cons]
      unfold replaceSlash
      simp only [List.map_append]
      have h1 : replaceSlash c = c := replaceSlash_eq_self (h c (List.mem_cons_self _ _))
      have h2 : List.map (fun a => if a = '/' then '_' else a) ['/'] = ['_'] := by decide
      unfold replaceSlash at h1 ih
      rw [h1, h2, ih (fun x hx => h x (List.mem_cons_of_mem _ hx))]

theorem pathName_concat (p : PathC) (x : Comp) : pathName (p ++ [x]) = x := by
  simp [pathName, List.getLast?_concat]

theorem withSuffixEmpty_concat (i : PathC) (x : Comp) :
    withSuffixEmpty (i ++ [x]) = i ++ [pyStem x] := by
  cases i with
  | nil =>
    show withSuffixEmpty [x] = [pyStem x]
    simp [withSuffixEmpty, pathName]
  | cons a as =>
    show (a :: (as ++ [x])).dropLast ++ [pyStem (pathName (a :: (as ++ [x])))]
        = (a :: as) ++ [pyStem x]
    have h1 : a :: (as ++ [x]) = (a :: as) ++ [x] := rfl
    rw [h1, List.dropLast_concat, pathName_concat]

theorem relativeTo_append (root rel : PathC) :
    relativeTo (root ++ rel) root = some rel := by
  unfold relativeTo
  rw [if_pos]
  · rw [List.drop_left]
  · exact List.isPrefixOf_iff_prefix.mpr (List.prefix_append root rel)

/-- Normal form of the resolver on a file strictly inside the root whose
name `s ++ "." ++ e` has a non-empty stem and a non-empty, dot-free,
already-lowercase extension, and whose components are separator-free: the
relative components with the stemmed name, joined by underscores, with the
extension as a final joined part. -/
theorem normalize_concat (root i : PathC) (s e : Comp)
    (hs : s ≠ []) (he : e ≠ []) (hdot : '.' ∉ e)
    (hlow : ∀ ch ∈ e, ch.toLower = ch)
    (hslash : ∀ c ∈ i, '/' ∉ c) (hslash_s : '/' ∉ s) :
    normalize_target_in_project (root ++ (i ++ [s ++ '.' :: e])) root
      = List.intercalate ['_'] (i ++ [s] ++ [e]) := by
  unfold normalize_target_in_project
  rw [relativeTo_append]
  show (let posix_no_ext := asPosix (withSuffixEmpty (i ++ [s ++ '.' :: e]))
    let base := replaceSlash posix_no_ext
    let ext := lstripDot (lowerC (pySuffix (pathName (root ++ (i ++ [s ++ '.' :: e])))))
    if ext = [] then base else base ++ '_' :: ext) = _
  have hname : pathName (root ++ (i ++ [s ++ '.' :: e])) = s ++ '.' :: e := by
    rw [← List.append_assoc]
    exact pathName_concat (root ++ i) (s ++ '.' :: e)
  have hext : lstripDot (lowerC (pySuffix (s ++ '.' :: e))) = e := by
    rw [pySuffix_append hs he hdot]
    show List.dropWhile (fun c => c == '.')
        (List.map Char.toLower ('.' :: e)) = e
    rw [List.map_cons]
    have : Char.toLower '.' = '.' := by decide
    rw [this, List.map_congr_left hlow, List.map_id',
      List.dropWhile_cons_of_pos (by simp)]
    cases e with
    | nil => cases he rfl
    | cons c e2 =>
      rw [List.dropWhile_cons_of_neg]
      simp only [beq_iff_eq]
      exact fun hc => hdot (hc ▸ List.mem_cons_self c e2)
  have hbase : replaceSlash (asPosix (withSuffixEmpty (i ++ [s ++ '.' :: e])))
      = List.intercalate ['_'] (i ++ [s]) := by
    rw [withSuffixEmpty_concat, pyStem_append hs he hdot]
    unfold asPosix
    refine replaceSlash_intercalate (i ++ [s]) ?_
    intro c hc
    rcases List.mem_append.mp hc with hci | hcs
    · exact hslash c hci
    · rw [List.mem_singleton.mp hcs]
      exact hslash_s
  simp only [hname, hext, hbase]
  rw [if_neg he]
  rw [intercalate_concat_last ['_'] (i ++ [s]) (by simp) e]
  simp [List.append_assoc]

/-! ### C1 -/

/-- C1 (amended): on files strictly inside the project root whose relative
paths decompose well (components free of `_` and `/`, non-empty stem,
non-empty dot-free lowercase extension), `normalize_target_in_project` is
injective: equal target identifiers force equal relative paths, hence equal
(relative-path, extension) pairs. -/
theorem resolveTarget_injective_on_goodSplits
    (root i₁ i₂ : PathC) (s₁ s₂ e₁ e₂ : Comp)
    (h₁ : GoodSplit i₁ s₁ e₁) (h₂ : GoodSplit i₂ s₂ e₂)
    (heq : normalize_target_in_project (root ++ (i₁ ++ [s₁ ++ '.' :: e₁])) root
         = normalize_target_in_project (root ++ (i₂ ++ [s₂ ++ '.' :: e₂])) root) :
    i₁ ++ [s₁ ++ '.' :: e₁] = i₂ ++ [s₂ ++ '.' :: e₂] := by
  obtain ⟨hs₁, he₁, hdot₁, hlow₁, hgood₁, hsl₁, hus₁, hue₁⟩ := h₁
  obtain ⟨hs₂, he₂, hdot₂, hlow₂, hgood₂, hsl₂, hus₂, hue₂⟩ := h₂
  rw [normalize_concat root i₁ s₁ e₁ hs₁ he₁ hdot₁ hlow₁
        (fun c hc => (hgood₁ c hc).1) hsl₁,
      normalize_concat root i₂ s₂ e₂ hs₂ he₂ hdot₂ hlow₂
        (fun c hc => (hgood₂ c hc).1) hsl₂] at heq
  have hx₁ : ∀ l ∈ i₁ ++ [s₁] ++ [e₁], '_' ∉ l := by
    intro l hl
    rcases List.mem_append.mp hl with hl' | hl'
    · rcases List.mem_append.mp hl' with hi | hs
      · exact (hgood₁ l hi).2
      · rw [List.mem_singleton.mp hs]; exact hus₁
    · rw [List.mem_singleton.mp hl']; exact hue₁
  have hx₂ : ∀ l ∈ i₂ ++ [s₂] ++ [e₂], '_' ∉ l := by
    intro l hl
    rcases List.mem_append.mp hl with hl' | hl'
    · rcases List.mem_append.mp hl' with hi | hs
      · exact (hgood₂ l hi).2
      · rw [List.mem_singleton.mp hs]; exact hus₂
    · rw [List.mem_singleton.mp hl']; exact hue₂
  have key : i₁ ++ [s₁] ++ [e₁] = i₂ ++ [s₂] ++ [e₂] := by
    have t₁ := List.splitOn_intercalate _ '_' hx₁ (by simp)
    have t₂ := List.splitOn_intercalate _ '_' hx₂ (by simp)
    rw [← t₁, ← t₂, heq]
  obtain ⟨k1, k2⟩ := List.append_inj' key (by simp)
  obtain ⟨k3, k4⟩ := List.append_inj' k1 (by simp)
  simp only [List.cons.injEq, and_true] at k2 k4
  rw [k3, k4, k2]

/-- C1 counterexample: `/home/p/src/foo.c` and `/home/p/src_foo.c` are both
strictly inside the root, have distinct relative paths (and the same
extension, so distinct (relative-path, extension) pairs), yet receive the
same target identifier `src_foo_c`. -/
theorem resolveTarget_not_injective :
    normalize_target_in_project fileInEx rootEx
      = normalize_target_in_project fileInEx2 rootEx
    ∧ relativeTo fileInEx rootEx ≠ relativeTo fileInEx2 rootEx
    ∧ (relativeTo fileInEx rootEx).isSome = true
    ∧ (relativeTo fileInEx2 rootEx).isSome = true
    ∧ pySuffix (pathName fileInEx) = pySuffix (pathName fileInEx2) := by decide

/-- Witness for the amended C1 theorem at the relative path `src/foo.c`. -/
theorem resolveTarget_injective_on_goodSplits_witness :
    GoodSplit ["src".data] "foo".data "c".data
    ∧ normalize_target_in_project
        (rootEx ++ (["src".data] ++ ["foo".data ++ '.' :: "c".data])) rootEx
      = normalize_target_in_project
        (rootEx ++ (["src".data] ++ ["foo".data ++ '.' :: "c".data])) rootEx
    ∧ ["src".data] ++ ["foo".data ++ '.' :: "c".data]
      = ["src".data] ++ ["foo".data ++ '.' :: "c".data] := by
  refine ⟨?_, rfl, ?_⟩
  · refine ⟨by decide, by decide, by decide, by decide, by decide, by decide, by decide,
      by decide⟩
  · exact resolveTarget_injective_on_goodSplits rootEx ["src".data] ["src".data]
      "foo".data "foo".data "c".data "c".data
      ⟨by decide, by decide, by decide, by decide, by decide, by decide, by decide,
        by decide⟩
      ⟨by decide, by decide, by decide, by decide, by decide, by decide, by decide,
        by decide⟩
      rfl

/-! ### C2 -/

/-- C2: the fallback identifier for a file outside the project root is not a
non-colliding sentinel — `/tmp/foo.c`, outside the root `/home/p`, maps to
`foo_c`, exactly the identifier of the real in-root file `/home/p/foo.c`,
contradicting the claim (and the code's own comment "return a name that
will surely not exist"). -/
theorem sentinel_collides_with_real_target :
    relativeTo fileOutEx rootEx = none
    ∧ (relativeTo fileTopEx rootEx).isSome = true
    ∧ normalize_target_in_project fileOutEx rootEx
      = normalize_target_in_project fileTopEx rootEx
    ∧ normalize_target_in_project fileOutEx rootEx = "foo_c".data := by decide

/-! ### C3 -/

theorem resolveTargetSpec_inside (root i : PathC) (x : Comp) :
    resolveTargetSpec (root ++ (i ++ [x])) root
      = (let base := List.intercalate ['_'] (i ++ [pyStem x]);
         let ext := lowerC ((pySuffix x).drop 1);
         if ext = [] then base else base ++ '_' :: ext) := by
  unfold resolveTargetSpec
  rw [List.drop_left]
  show (let stemmed := (i ++ [x]).dropLast ++ [pyStem (pathName (i ++ [x]))];
        let joined := List.intercalate ['_'] stemmed;
        let ext := lowerC ((pySuffix (pathName (i ++ [x]))).drop 1);
        if ext = [] then joined else joined ++ '_' :: ext) = _
  rw [List.dropLast_concat, pathName_concat]

theorem normalize_inside (root i : PathC) (x : Comp)
    (hslash : ∀ c ∈ i ++ [x], '/' ∉ c) :
    normalize_target_in_project (root ++ (i ++ [x])) root
      = (let base := List.intercalate ['_'] (i ++ [pyStem x]);
         let ext := lstripDot (lowerC (pySuffix x));
         if ext = [] then base else base ++ '_' :: ext) := by
  unfold normalize_target_in_project
  rw [relativeTo_append]
  show (let posix_no_ext := asPosix (withSuffixEmpty (i ++ [x]));
        let base := replaceSlash posix_no_ext;
        let ext := lstripDot (lowerC (pySuffix (pathName (root ++ (i ++ [x])))));
        if ext = [] then base else base ++ '_' :: ext) = _
  have h1 : pathName (root ++ (i ++ [x])) = x := by
    rw [← List.append_assoc]
    exact pathName_concat (root ++ i) x
  rw [h1, withSuffixEmpty_concat]
  show (let base := replaceSlash (asPosix (i ++ [pyStem x]));
        let ext := lstripDot (lowerC (pySuffix x));
        if ext = [] then base else base ++ '_' :: ext) = _
  have h2 : replaceSlash (asPosix (i ++ [pyStem x]))
      = List.intercalate ['_'] (i ++ [pyStem x]) := by
    unfold asPosix
    refine replaceSlash_intercalate (i ++ [pyStem x]) ?_
    intro c hc
    rcases List.mem_append.mp hc with hi | hx
    · exact hslash c (List.mem_append_left [x] hi)
    · rw [List.mem_singleton.mp hx]
      intro hmem
      exact hslash x (List.mem_append_right i (List.mem_singleton.mpr rfl))
        (List.take_subset _ _ hmem)
  rw [h2]

/-- C3: for every file strictly inside the project root (written as
`root ++ (i ++ [x])` with separator-free components, as resolved path
components are), the resolver computes exactly what the spec describes —
relative path, extension dropped, separators to the underscore joiner,
lowercased extension appended when present — and in particular
`/home/p/src/foo.c` maps to `src_foo_c`. -/
theorem resolveTarget_matches_spec (root i : PathC) (x : Comp)
    (hslash : ∀ c ∈ i ++ [x], '/' ∉ c) :
    normalize_target_in_project (root ++ (i ++ [x])) root
      = resolveTargetSpec (root ++ (i ++ [x])) root
    ∧ normalize_target_in_project fileInEx rootEx = "src_foo_c".data := by
  constructor
  · rw [normalize_inside root i x hslash, resolveTargetSpec_inside root i x,
      lstrip_lower_pySuffix x]
  · decide

/-- Witness for C3 at the file `/home/p/src/foo.c`. -/
theorem resolveTarget_matches_spec_witness :
    (∀ c ∈ ["src".data] ++ ["foo.c".data], '/' ∉ c)
    ∧ (normalize_target_in_project (rootEx ++ (["src".data] ++ ["foo.c".data])) rootEx
        = resolveTargetSpec (rootEx ++ (["src".data] ++ ["foo.c".data])) rootEx
      ∧ normalize_target_in_project fileInEx rootEx = "src_foo_c".data) :=
  ⟨by decide, resolveTarget_matches_spec rootEx ["src".data] "foo.c".data (by decide)⟩

/-! ### C8 and C9: the environment prober -/

theorem buildNameSet_enc (names : List (Option String)) :
    buildNameSet (names.map encEntry) = .ok (names.map encName) := by
  induction names with
  | nil => rfl
  | cons n rest ih =>
    cases n with
    | none => simp [encEntry, encName, buildNameSet, dictGet, dictLookup, hashable, ih]
    | some s => simp [encEntry, encName, buildNameSet, dictGet, dictLookup, hashable, ih]

theorem any_pyStrEq_iff (c : String) (names : List (Option String)) :
    ((names.map encName).any (pyStrEq c) = true) ↔ some c ∈ names := by
  rw [List.any_eq_true]
  constructor
  · rintro ⟨x, hx, hpx⟩
    obtain ⟨n, hn, rfl⟩ := List.mem_map.mp hx
    cases n with
    | some s =>
      have hc : c = s := by simpa [pyStrEq, encName] using hpx
      rw [hc]
      exact hn
    | none => simp [pyStrEq, encName] at hpx
  · intro hmem
    exact ⟨Json.str c, List.mem_map.mpr ⟨some c, hmem, rfl⟩, by simp [pyStrEq]⟩

/-- On a well-shaped capabilities document `choose_generator` raises
nothing and reduces to a first-match search over the reported names. -/
theorem choose_generator_capsOutput (preferred : List String)
    (names : List (Option String)) :
    choose_generator preferred (.ok (capsOutput names))
      = .ok (preferred.find?
          (fun c => (names.map encName).any (pyStrEq c))) := by
  simp [choose_generator, read_capabilities, capsOutput, dictGet, dictLookup,
    iterate, buildNameSet_enc]

/-- C8 counterexample: output that decodes as JSON but is not shaped like
a capabilities object makes `choose_generator` raise instead of returning
`none`: a top-level array has no `.get` (`AttributeError`), a numeric
`generators` entry has no `.get` (`AttributeError`), and a non-iterable
`generators` value raises `TypeError` — refuting the claim that malformed
output degrades to `none` without raising. -/
theorem choose_generator_raises_on_malformed :
    choose_generator PREFERRED_GENERATORS (.ok (Json.list []))
      = .error PyError.attributeError
    ∧ choose_generator PREFERRED_GENERATORS
        (.ok (Json.dict [("generators", Json.list [Json.num 1])]))
      = .error PyError.attributeError
    ∧ choose_generator PREFERRED_GENERATORS
        (.ok (Json.dict [("generators", Json.num 1)]))
      = .error PyError.typeError := ⟨rfl, rfl, rfl⟩

/-- C8 (amended): `choose_generator` returns — without raising — the first
preference-list entry among the reported names when the query fails
entirely (absent tool, non-zero exit, undecodable output: the empty
document, hence `none`) or when the output is a well-shaped capabilities
object, and `none` when no entry is reported; but output that decodes as
JSON without that shape instead raises an uncaught error (see the
counterexample). -/
theorem choose_generator_first_match (preferred : List String)
    (names : List (Option String)) (g : String) :
    choose_generator preferred .failed = .ok none
    ∧ (choose_generator preferred (.ok (capsOutput names)) = .ok (some g) ↔
        ∃ l₁ l₂, preferred = l₁ ++ g :: l₂ ∧ (some g) ∈ names
          ∧ ∀ c ∈ l₁, (some c) ∉ names)
    ∧ (choose_generator preferred (.ok (capsOutput names)) = .ok none ↔
        ∀ c ∈ preferred, (some c) ∉ names) := by
  refine ⟨?_, ?_, ?_⟩
  · simp [choose_generator, read_capabilities, dictGet, dictLookup, iterate,
      buildNameSet, List.find?_eq_none]
  · rw [choose_generator_capsOutput]
    simp only [Except.ok.injEq]
    rw [List.find?_eq_some]
    constructor
    · rintro ⟨hp, as, bs, hsplit, hall⟩
      refine ⟨as, bs, hsplit, (any_pyStrEq_iff g names).mp hp, ?_⟩
      intro c hc
      intro hmem
      have := hall c hc
      rw [(any_pyStrEq_iff c names).mpr hmem] at this
      cases this
    · rintro ⟨l₁, l₂, hsplit, hmem, hall⟩
      refine ⟨(any_pyStrEq_iff g names).mpr hmem, l₁, l₂, hsplit, ?_⟩
      intro a ha
      have : ¬((names.map encName).any (pyStrEq a) = true) :=
        fun hx => hall a ha ((any_pyStrEq_iff a names).mp hx)
      simpa using this
  · rw [choose_generator_capsOutput]
    simp only [Except.ok.injEq]
    rw [List.find?_eq_none]
    constructor
    · intro h c hc
      exact fun hmem => h c hc ((any_pyStrEq_iff c names).mpr hmem)
    · intro h c hc
      exact fun hx => h c hc ((any_pyStrEq_iff c names).mp hx)

/-- C9: `choose_compiler` probes the candidates in list order and returns
the first one the search path resolves, or `none` when none resolves. -/
theorem choose_compiler_first_found (preferred : List String)
    (which : String → Bool) (c : String) :
    (choose_compiler preferred which = some c ↔
      ∃ l₁ l₂, preferred = l₁ ++ c :: l₂ ∧ which c = true
        ∧ ∀ x ∈ l₁, which x = false)
    ∧ (choose_compiler preferred which = none ↔ ∀ x ∈ preferred, which x = false) := by
  constructor
  · unfold choose_compiler
    rw [List.find?_eq_some]
    constructor
    · rintro ⟨hp, as, bs, hsplit, hall⟩
      refine ⟨as, bs, hsplit, hp, ?_⟩
      intro x hx
      simpa using hall x hx
    · rintro ⟨l₁, l₂, hsplit, hw, hall⟩
      refine ⟨hw, l₁, l₂, hsplit, ?_⟩
      intro a ha
      simp [hall a ha]
  · unfold choose_compiler
    rw [List.find?_eq_none]
    constructor
    · intro h x hx
      simpa using h x hx
    · intro h x hx
      simp [h x hx]

/-! ### C5: multi-configuration detection and flag placement -/

theorem containsSub_iff {n h : List Char} : containsSub n h = true ↔ n <:+: h := by
  unfold containsSub
  rw [List.any_eq_true]
  constructor
  · rintro ⟨t, ht, hpre⟩
    exact List.infix_iff_prefix_suffix.mpr
      ⟨t, List.isPrefixOf_iff_prefix.mp hpre, (List.mem_tails t h).mp ht⟩
  · intro hinf
    obtain ⟨t, hpre, hsuf⟩ := List.infix_iff_prefix_suffix.mp hinf
    exact ⟨t, (List.mem_tails t h).mpr hsuf, List.isPrefixOf_iff_prefix.mpr hpre⟩

theorem flag_ne_lit (cfg lit : String)
    (h : ¬(lit.data.take 19 = "-DCMAKE_BUILD_TYPE=".data)) :
    "-DCMAKE_BUILD_TYPE=" ++ cfg ≠ lit := by
  intro he
  apply h
  rw [← he, String.data_append]
  exact List.take_left' (by decide)

/-- C5: `is_multi_config` holds exactly when the lowercased generator name
contains a multi-configuration marker; multi-config generators get the
configuration at build time (`--config`) and no build-type define at
configure time, while all other generators get the configuration only at
configure time (`-DCMAKE_BUILD_TYPE=`) and nothing at build time. -/
theorem multi_config_flag_placement (g cfg target : String)
    (extraC extraB : List String)
    (hC : ("-DCMAKE_BUILD_TYPE=" ++ cfg) ∉ extraC)
    (hB : "--config" ∉ extraB)
    (hG : g ≠ "-DCMAKE_BUILD_TYPE=" ++ cfg)
    (hT : target ≠ "--config") :
    (is_multi_config g = true ↔
      ∃ m ∈ multiConfigMarkers, m.data <:+: g.data.map Char.toLower)
    ∧ ("--config" ∈ build_cmd target g cfg extraB ↔ is_multi_config g = true)
    ∧ (("-DCMAKE_BUILD_TYPE=" ++ cfg) ∈ configure_cmd g cfg extraC
        ↔ is_multi_config g = false) := by
  refine ⟨?_, ?_, ?_⟩
  · unfold is_multi_config
    rw [Bool.or_eq_true, containsSub_iff, containsSub_iff]
    constructor
    · rintro (h1 | h2)
      · exact ⟨"multi-config", by simp [multiConfigMarkers], h1⟩
      · exact ⟨"visual studio", by simp [multiConfigMarkers], h2⟩
    · rintro ⟨m, hm, hinf⟩
      rcases (by simpa [multiConfigMarkers] using hm :
          m = "multi-config" ∨ m = "visual studio") with rfl | rfl
      · exact Or.inl hinf
      · exact Or.inr hinf
  · unfold build_cmd
    cases hm : is_multi_config g with
    | true =>
      simp only [if_pos rfl]
      simp [List.mem_append, List.mem_cons]
    | false =>
      rw [if_neg (by simp)]
      simp only [List.append_nil, List.mem_append, List.mem_cons,
        List.not_mem_nil, or_false]
      constructor
      · rintro ((h | h | h | h | h) | h)
        · exact absurd h (by decide)
        · exact absurd h (by decide)
        · exact absurd h (by decide)
        · exact absurd h (by decide)
        · exact absurd h.symm hT
        · exact absurd h hB
      · intro h
        cases h
  · unfold configure_cmd
    cases hm : is_multi_config g with
    | true =>
      rw [if_pos rfl]
      simp only [List.append_nil, List.mem_append, List.mem_cons,
        List.not_mem_nil, or_false]
      constructor
      · rintro ((h | h | h | h | h | h | h | h) | h)
        · exact absurd h (flag_ne_lit cfg "cmake" (by decide))
        · exact absurd h (flag_ne_lit cfg "-S" (by decide))
        · exact absurd h (flag_ne_lit cfg "." (by decide))
        · exact absurd h (flag_ne_lit cfg "-B" (by decide))
        · exact absurd h (flag_ne_lit cfg "build" (by decide))
        · exact absurd h (flag_ne_lit cfg "-G" (by decide))
        · exact absurd h.symm hG
        · exact absurd h (flag_ne_lit cfg "-Wno-dev" (by decide))
        · exact absurd h hC
      · intro h
        cases h
    | false =>
      rw [if_neg (by simp)]
      simp [List.mem_append, List.mem_cons]

/-- Witness for C5 at the generator `Ninja Multi-Config` with configuration
`Release`, target `main_c` and no extra arguments. -/
theorem multi_config_flag_placement_witness :
    (("-DCMAKE_BUILD_TYPE=" ++ "Release") ∉ ([] : List String))
    ∧ ("--config" ∉ ([] : List String))
    ∧ ("Ninja Multi-Config" : String) ≠ "-DCMAKE_BUILD_TYPE=" ++ "Release"
    ∧ ("main_c" : String) ≠ "--config"
    ∧ ((is_multi_config "Ninja Multi-Config" = true ↔
        ∃ m ∈ multiConfigMarkers,
          m.data <:+: ("Ninja Multi-Config" : String).data.map Char.toLower)
      ∧ ("--config" ∈ build_cmd "main_c" "Ninja Multi-Config" "Release" [] ↔
          is_multi_config "Ninja Multi-Config" = true)
      ∧ (("-DCMAKE_BUILD_TYPE=" ++ "Release")
            ∈ configure_cmd "Ninja Multi-Config" "Release" []
          ↔ is_multi_config "Ninja Multi-Config" = false)) :=
  ⟨by decide, by decide, by decide, by decide,
    multi_config_flag_placement "Ninja Multi-Config" "Release" "main_c" [] []
      (by decide) (by decide) (by decide) (by decide)⟩

/-! ### Lemmas about the orchestration in `main` -/

theorem directBranch_strategy (env : Env) :
    (directBranch env).strategy = some Strategy.directCompile := by
  cases hcc : choose_compiler
      (if env.fileIsC then PREFERRED_COMPILERS_C else PREFERRED_COMPILERS_CXX)
      env.which with
  | none => simp [directBranch, hcc]
  | some c =>
    by_cases hx : env.compileExit ≠ 0 <;>
      by_cases hch : env.childExit ≠ 0 <;>
      simp [directBranch, executePhase, hcc, hx, hch]

theorem projectBranch_strategy (env : Env) (t : String) :
    (projectBranch env t).strategy = some Strategy.projectBuild := by
  cases hg : (match env.generatorFlag with
    | some g => if g = "" then choose_generator PREFERRED_GENERATORS env.caps
                else .ok (some g)
    | none => choose_generator PREFERRED_GENERATORS env.caps) with
  | error e => simp [projectBranch, crashResult, hg]
  | ok o =>
    cases o with
    | none => simp [projectBranch, hg]
    | some g =>
      by_cases hcf : env.configureExit ≠ 0 <;>
        by_cases hb : env.buildExit ≠ 0 <;>
        by_cases hbe : env.binaryExists = true <;>
        by_cases hch : env.childExit ≠ 0 <;>
        simp [projectBranch, executePhase, hg, hcf, hb, hbe, hch]

theorem runMain_eq_branches (env : Env)
    (h1 : env.listGenerators = false) (h2 : env.printBinary = false) :
    runMain env = (if !env.cmakeOnPath then directBranch env
      else if (relativeTo env.filePath env.projectRoot).isNone then directBranch env
      else projectBranch env
        (String.mk (normalize_target_in_project env.filePath env.projectRoot))) := by
  unfold runMain
  rw [h1, h2]
  rfl

theorem directBranch_exec (env : Env)
    (hex : (directBranch env).executed = true) (hch : env.childExit ≠ 0) :
    (directBranch env).exitCode = env.childExit
    ∧ (directBranch env).logDumped = false
    ∧ (directBranch env).message = some (execFailMsg env.childExit) := by
  cases hcc : choose_compiler
      (if env.fileIsC then PREFERRED_COMPILERS_C else PREFERRED_COMPILERS_CXX)
      env.which with
  | none => simp [directBranch, hcc] at hex
  | some c =>
    by_cases hx : env.compileExit ≠ 0
    · simp [directBranch, hcc, hx] at hex
    · simp [directBranch, executePhase, hcc, hx, hch]

theorem projectBranch_exec (env : Env) (t : String)
    (hex : (projectBranch env t).executed = true) (hch : env.childExit ≠ 0) :
    (projectBranch env t).exitCode = env.childExit
    ∧ (projectBranch env t).logDumped = false
    ∧ (projectBranch env t).message = some (execFailMsg env.childExit) := by
  cases hg : (match env.generatorFlag with
    | some g => if g = "" then choose_generator PREFERRED_GENERATORS env.caps
                else .ok (some g)
    | none => choose_generator PREFERRED_GENERATORS env.caps) with
  | error e => simp [projectBranch, crashResult, hg] at hex
  | ok o =>
    cases o with
    | none => simp [projectBranch, hg] at hex
    | some g =>
      by_cases hcf : env.configureExit ≠ 0
      · simp [projectBranch, hg, hcf] at hex
      · by_cases hb : env.buildExit ≠ 0
        · simp [projectBranch, hg, hcf, hb] at hex
        · by_cases hbe : env.binaryExists = true
          · simp [projectBranch, executePhase, hg, hcf, hb, hbe, hch]
          · simp [projectBranch, hg, hcf, hb, hbe] at hex

theorem execFailMsg_head (m : Nat) : (execFailMsg m).data.head? = some 'E' := rfl

theorem cmakeFailMsg_head (n : Nat) : (cmakeFailMsg n).data.head? = some 'C' := rfl

theorem compileFailMsg_head (n : Nat) : (compileFailMsg n).data.head? = some 'C' := rfl

/-- The run-failure message never coincides with a build- or
compile-failure message: they start with different characters. -/
theorem execFailMsg_ne_buildMsgs (m n : Nat) :
    execFailMsg m ≠ cmakeFailMsg n ∧ execFailMsg m ≠ compileFailMsg n := by
  constructor
  · intro he
    have h := congrArg (fun s => s.data.head?) he
    simp only [execFailMsg_head, cmakeFailMsg_head] at h
    exact absurd h (by decide)
  · intro he
    have h := congrArg (fun s => s.data.head?) he
    simp only [execFailMsg_head, compileFailMsg_head] at h
    exact absurd h (by decide)

theorem runMain_branch_cases (env : Env)
    (h1 : env.listGenerators = false) (h2 : env.printBinary = false) :
    runMain env = directBranch env
    ∨ runMain env = projectBranch env
        (String.mk (normalize_target_in_project env.filePath env.projectRoot)) := by
  rw [runMain_eq_branches env h1 h2]
  cases hc : env.cmakeOnPath with
  | false => left; simp
  | true =>
    cases hrel : relativeTo env.filePath env.projectRoot with
    | none => left; simp
    | some r => right; simp

theorem projectBranch_tempCreated (env : Env) (t : String) :
    (projectBranch env t).tempCreated = false := by
  cases hg : (match env.generatorFlag with
    | some g => if g = "" then choose_generator PREFERRED_GENERATORS env.caps
                else .ok (some g)
    | none => choose_generator PREFERRED_GENERATORS env.caps) with
  | error e => simp [projectBranch, crashResult, hg]
  | ok o =>
    cases o with
    | none => simp [projectBranch, hg]
    | some g =>
      by_cases hcf : env.configureExit ≠ 0 <;>
        by_cases hb : env.buildExit ≠ 0 <;>
        by_cases hbe : env.binaryExists = true <;>
        by_cases hch : env.childExit ≠ 0 <;>
        simp [projectBranch, executePhase, hg, hcf, hb, hbe, hch]

theorem listGeneratorsExit_executed (env : Env) :
    (listGeneratorsExit env).executed = false := by
  unfold listGeneratorsExit
  split
  · rfl
  · split
    · rfl
    · split
      · rfl
      · rfl

theorem printBinaryExit_executed (env : Env) :
    (printBinaryExit env).executed = false := by
  unfold printBinaryExit
  split
  · rfl
  · split
    · rfl
    · rfl

/-- A run that reached the execution phase cannot have taken an early flag
exit (which exits 0 or crashes before any execution), so both flags were
off. -/
theorem executed_flags_off (env : Env) (hex : (runMain env).executed = true) :
    env.listGenerators = false ∧ env.printBinary = false := by
  constructor
  · by_contra hne
    have h1 : env.listGenerators = true := by
      revert hne
      cases env.listGenerators <;> simp
    unfold runMain at hex
    rw [if_pos h1, listGeneratorsExit_executed] at hex
    cases hex
  · by_contra hne
    have h2 : env.printBinary = true := by
      revert hne
      cases env.printBinary <;> simp
    unfold runMain at hex
    by_cases h1 : env.listGenerators = true
    · rw [if_pos h1, listGeneratorsExit_executed] at hex
      cases hex
    · rw [if_neg h1, if_pos h2, printBinaryExit_executed] at hex
      cases hex

/-! ### C6 -/

/-- C6: with the two early-exit flags off, `main` commits to direct
compilation exactly when the build tool is absent from the path or the
file is outside the project root, and to the project build exactly
otherwise. -/
theorem strategy_selection (env : Env)
    (h1 : env.listGenerators = false) (h2 : env.printBinary = false) :
    ((runMain env).strategy = some Strategy.directCompile ↔
      (env.cmakeOnPath = false ∨ relativeTo env.filePath env.projectRoot = none))
    ∧ ((runMain env).strategy = some Strategy.projectBuild ↔
      (env.cmakeOnPath = true
        ∧ (relativeTo env.filePath env.projectRoot).isSome = true)) := by
  rw [runMain_eq_branches env h1 h2]
  cases hc : env.cmakeOnPath with
  | false => simp [directBranch_strategy]
  | true =>
    cases hrel : relativeTo env.filePath env.projectRoot with
    | none => simp [directBranch_strategy]
    | some r => simp [projectBranch_strategy]

/-- Witness for C6 in the environment with `cmake` absent. -/
theorem strategy_selection_witness :
    envDirectOk.listGenerators = false ∧ envDirectOk.printBinary = false
    ∧ (((runMain envDirectOk).strategy = some Strategy.directCompile ↔
        (envDirectOk.cmakeOnPath = false
          ∨ relativeTo envDirectOk.filePath envDirectOk.projectRoot = none))
      ∧ ((runMain envDirectOk).strategy = some Strategy.projectBuild ↔
        (envDirectOk.cmakeOnPath = true
          ∧ (relativeTo envDirectOk.filePath envDirectOk.projectRoot).isSome = true))) :=
  ⟨rfl, rfl, strategy_selection envDirectOk rfl rfl⟩

/-! ### C7 -/

/-- C7: whenever the built or compiled program was executed and exited with
a non-zero code, the tool exits with that same code, prints the run-failure
message — distinct from every configure/build- and compile-failure
message — and does not dump the build log. -/
theorem child_failure_mirrored (env : Env)
    (hex : (runMain env).executed = true) (hch : env.childExit ≠ 0) :
    (runMain env).exitCode = env.childExit
    ∧ (runMain env).logDumped = false
    ∧ (runMain env).message = some (execFailMsg env.childExit)
    ∧ ∀ n, execFailMsg env.childExit ≠ cmakeFailMsg n
        ∧ execFailMsg env.childExit ≠ compileFailMsg n := by
  obtain ⟨h1, h2⟩ := executed_flags_off env hex
  rcases runMain_branch_cases env h1 h2 with hbr | hbr <;> rw [hbr] at hex ⊢
  · obtain ⟨a, b, c⟩ := directBranch_exec env hex hch
    exact ⟨a, b, c, fun n => execFailMsg_ne_buildMsgs env.childExit n⟩
  · obtain ⟨a, b, c⟩ := projectBranch_exec env _ hex hch
    exact ⟨a, b, c, fun n => execFailMsg_ne_buildMsgs env.childExit n⟩

/-- Witness for C7: a successful direct compilation whose program exits
with code 7 — the tool exits 7 with no log dump. -/
theorem child_failure_mirrored_witness :
    (runMain { envDirectOk with childExit := 7 }).executed = true
    ∧ (7 : Nat) ≠ 0
    ∧ ((runMain { envDirectOk with childExit := 7 }).exitCode = 7
      ∧ (runMain { envDirectOk with childExit := 7 }).logDumped = false
      ∧ (runMain { envDirectOk with childExit := 7 }).message = some (execFailMsg 7)
      ∧ ∀ n, execFailMsg 7 ≠ cmakeFailMsg n ∧ execFailMsg 7 ≠ compileFailMsg n) :=
  ⟨by decide, by decide,
    child_failure_mirrored { envDirectOk with childExit := 7 } (by decide) (by decide)⟩

/-! ### C4 -/

/-- C4 counterexample: when the compilation itself fails in
direct-compilation mode, the temporary directory has been created but the
program exits (dumping the log) without removing it — the claim that the
directory is removed on the failed-compilation exit path is false. -/
theorem temp_dir_leaks_on_compile_failure :
    (runMain envCompileFail).tempCreated = true
    ∧ (runMain envCompileFail).tempRemoved = false
    ∧ (runMain envCompileFail).executed = false
    ∧ (runMain envCompileFail).exitCode = 1
    ∧ (runMain envCompileFail).logDumped = true := by decide

/-- C4 (amended): whenever the run reaches the execution phase with a
temporary directory created, the `finally` cleanup attempts the removal —
it succeeds exactly when `rmtree` does — and a removal error is swallowed:
the exit code is the run outcome regardless of `rmtree`.  (On a failed
compilation the program exits before any cleanup, see the
counterexample.) -/
theorem temp_dir_cleanup_after_execute (env : Env)
    (hex : (runMain env).executed = true)
    (htc : (runMain env).tempCreated = true) :
    (runMain env).tempRemoved = env.rmtreeOk
    ∧ (runMain env).exitCode = (if env.childExit = 0 then 0 else env.childExit) := by
  obtain ⟨h1, h2⟩ := executed_flags_off env hex
  rcases runMain_branch_cases env h1 h2 with hbr | hbr <;> rw [hbr] at hex htc ⊢
  · cases hcc : choose_compiler
        (if env.fileIsC then PREFERRED_COMPILERS_C else PREFERRED_COMPILERS_CXX)
        env.which with
    | none => simp [directBranch, hcc] at hex
    | some c =>
      by_cases hx : env.compileExit ≠ 0
      · simp [directBranch, hcc, hx] at hex
      · by_cases hch : env.childExit = 0 <;>
          simp [directBranch, executePhase, hcc, hx, hch]
  · rw [projectBranch_tempCreated] at htc
    cases htc

/-- Witness for the amended C4 theorem: a successful direct run removes the
temporary directory and keeps exit code 0. -/
theorem temp_dir_cleanup_after_execute_witness :
    (runMain envDirectOk).executed = true
    ∧ (runMain envDirectOk).tempCreated = true
    ∧ ((runMain envDirectOk).tempRemoved = envDirectOk.rmtreeOk
      ∧ (runMain envDirectOk).exitCode
          = (if envDirectOk.childExit = 0 then 0 else envDirectOk.childExit)) :=
  ⟨by decide, by decide,
    temp_dir_cleanup_after_execute envDirectOk (by decide) (by decide)⟩

/-! ### C10 -/

/-- C10: in a successful multi-config project build, the binary is located
under the configuration directory named by the environment default, even
though the build itself was issued with the `--config` flag value; when the
two differ, the located path is not the path of the configuration that was
built. -/
theorem locate_binary_uses_default_config (env : Env) (g cfg : String)
    (h1 : env.listGenerators = false) (h2 : env.printBinary = false)
    (h3 : env.cmakeOnPath = true)
    (h5 : env.generatorFlag = some g) (h6 : ¬g = "")
    (h7 : env.configFlag = some cfg) (h8 : ¬cfg = "")
    (h9 : env.configureExit = 0) (h10 : env.buildExit = 0)
    (h11 : env.binaryExists = true)
    (hm : is_multi_config g = true) :
    ∀ r, relativeTo env.filePath env.projectRoot = some r →
    (runMain env).binaryPath
      = some ["build", env.defaultConfig,
          String.mk (normalize_target_in_project env.filePath env.projectRoot)
            ++ (if env.isWindows then ".exe" else "")]
    ∧ (runMain env).buildCmd
      = some (build_cmd
          (String.mk (normalize_target_in_project env.filePath env.projectRoot))
          g cfg env.buildArgs)
    ∧ (cfg ≠ env.defaultConfig →
        (runMain env).binaryPath
          ≠ some (exe_path
              (String.mk (normalize_target_in_project env.filePath env.projectRoot))
              g cfg env.isWindows)) := by
  intro r hrel
  have hred : runMain env = projectBranch env
      (String.mk (normalize_target_in_project env.filePath env.projectRoot)) := by
    rw [runMain_eq_branches env h1 h2, h3, hrel]
    simp
  rw [hred]
  obtain ⟨hbp, hbc⟩ :
      (projectBranch env
        (String.mk (normalize_target_in_project env.filePath env.projectRoot))).binaryPath
        = some ["build", env.defaultConfig,
            String.mk (normalize_target_in_project env.filePath env.projectRoot)
              ++ (if env.isWindows then ".exe" else "")]
      ∧ (projectBranch env
          (String.mk (normalize_target_in_project env.filePath env.projectRoot))).buildCmd
        = some (build_cmd
            (String.mk (normalize_target_in_project env.filePath env.projectRoot))
            g cfg env.buildArgs) := by
    by_cases hch : env.childExit ≠ 0 <;>
      simp [projectBranch, executePhase, exe_path, orDefault, h5, h6, h7, h8, h9, h10,
        h11, hm, hch]
  refine ⟨hbp, hbc, ?_⟩
  intro hne heq
  rw [hbp] at heq
  simp only [exe_path, hm, if_pos rfl, Option.some.injEq] at heq
  have : env.defaultConfig = cfg := by
    simpa using congrArg (fun l => l.get? 1) heq
  exact hne this.symm

/-- Witness for C10: generator `Ninja Multi-Config`, `--config Release`,
default `Debug` — the build runs with Release but the binary is looked up
in `build/Debug`. -/
theorem locate_binary_uses_default_config_witness :
    envProj.listGenerators = false ∧ envProj.printBinary = false
    ∧ envProj.cmakeOnPath = true
    ∧ envProj.generatorFlag = some "Ninja Multi-Config"
    ∧ ¬("Ninja Multi-Config" : String) = ""
    ∧ envProj.configFlag = some "Release" ∧ ¬("Release" : String) = ""
    ∧ envProj.configureExit = 0 ∧ envProj.buildExit = 0
    ∧ envProj.binaryExists = true
    ∧ is_multi_config "Ninja Multi-Config" = true
    ∧ relativeTo envProj.filePath envProj.projectRoot = some [("main.c").data]
    ∧ ((runMain envProj).binaryPath
        = some ["build", envProj.defaultConfig,
            String.mk (normalize_target_in_project envProj.filePath envProj.projectRoot)
              ++ (if envProj.isWindows then ".exe" else "")]
      ∧ (runMain envProj).buildCmd
        = some (build_cmd
            (String.mk (normalize_target_in_project envProj.filePath envProj.projectRoot))
            "Ninja Multi-Config" "Release" envProj.buildArgs)
      ∧ (("Release" : String) ≠ envProj.defaultConfig →
          (runMain envProj).binaryPath
            ≠ some (exe_path
                (String.mk (normalize_target_in_project envProj.filePath envProj.projectRoot))
                "Ninja Multi-Config" "Release" envProj.isWindows))) :=
  ⟨rfl, rfl, rfl, rfl, by decide, rfl, by decide, rfl, rfl, rfl, by decide, by decide,
    locate_binary_uses_default_config envProj "Ninja Multi-Config" "Release"
      rfl rfl rfl rfl (by decide) rfl (by decide) rfl rfl rfl (by decide)
      [("main.c").data] (by decide)⟩

end RunPy
